import Mathlib

/-!
# PomTimer: the timer state machine of `main.go`

A shallow embedding of the Bubble Tea model of `main.go` (the `model` struct,
`Init`, `Update`, `tick`, the numeric parts of `View` and the initial model
built in `main`), followed by the properties of the timer engine.

Go `int` fields are embedded as `Int`.  Inside `Update` the only arithmetic is
`m.remaining--`, executed only when `m.remaining > 0`, and `m.timerCycle++`,
executed only when `m.timerCycle < 3`; neither can wrap around at any machine
width, so the unbounded integers agree with the machine integers on every
value a Go `int` can hold.  In `View` the subtraction `m.height - 7` can wrap
around; it is embedded with the wrap of a 64-bit `int` made explicit
(`wrapInt`).  The divisions of `View` are Go's truncating `/` and `%`
(`Int.tdiv`, `Int.tmod`).
-/

namespace PomTimer

/-! ## Data model -/

/-- Go `type timerType int`: the session kind is an integer, of which the three
constants below are the named values. -/
abbrev timerType := Int

/-- Constant `workSession timerType = iota`, i.e. 0. -/
abbrev workSession : timerType := 0

/-- Constant `shortBreak`, i.e. 1. -/
abbrev shortBreak : timerType := 1

/-- Constant `longBreak`, i.e. 2. -/
abbrev longBreak : timerType := 2

/-- Go `type model struct`, field for field. -/
structure model where
  timerDuration : Int
  remaining : Int
  running : Bool
  timerCycle : Int
  timerType : timerType
  width : Int
  height : Int
deriving DecidableEq, Repr

/-- The messages `Update` distinguishes in its type switch.  `KeyMsg` carries the
text `msg.String()`; `other` stands for a message of any other dynamic type
(`tea.Msg` is the empty interface), for which no case of the switch applies. -/
inductive Msg where
  | WindowSizeMsg (Width Height : Int)
  | KeyMsg (key : String)
  | tickMsg
  | other
deriving DecidableEq, Repr

/-- The commands `Update` and `Init` return: `tick` is the command built by
`tick()` (deliver one `tickMsg` after one second), `Quit` is `tea.Quit`.  The Go
`nil` command is `none` of `Option Cmd`. -/
inductive Cmd where
  | tick
  | Quit
deriving DecidableEq, Repr

/-! ## Operations -/

/-- Go `func tick() tea.Cmd`. -/
def tick : Option Cmd := some Cmd.tick

/-- The `switch m.timerType` block of `Update` (the three cases, in order; a
kind that is none of the three constants matches no case and leaves the model as
it is). -/
def switchTimerType (m : model) : model :=
  if m.timerType = workSession then
    if m.timerCycle < 3 then
      { m with timerType := shortBreak, timerDuration := 5, timerCycle := m.timerCycle + 1 }
    else
      { m with timerCycle := 0, timerType := longBreak, timerDuration := 30 }
  else if m.timerType = shortBreak then
    { m with timerType := workSession, timerDuration := 25 }
  else if m.timerType = longBreak then
    { m with timerType := workSession, timerDuration := 25 }
  else
    m

/-- Go `func (m model) Update(msg tea.Msg) (tea.Model, tea.Cmd)`. -/
def Update (m : model) (msg : Msg) : model × Option Cmd :=
  match msg with
  | Msg.WindowSizeMsg w h =>
    ({ m with width := w, height := h }, none)
  | Msg.KeyMsg key =>
    if key = "s" then
      if !m.running then
        ({ m with running := true }, tick)
      else
        (m, none)
    else if key = "p" then
      ({ m with running := false }, none)
    else if key = "q" then
      (m, some Cmd.Quit)
    else
      (m, none)
  | Msg.tickMsg =>
    if m.running && decide (m.remaining > 0) then
      let m1 : model := { m with remaining := m.remaining - 1 }
      if m1.remaining = 0 then
        let m2 : model := { m1 with running := false }
        let m3 : model := switchTimerType m2
        let m4 : model := { m3 with remaining := m3.timerDuration }
        let m5 : model := { m4 with running := true }
        (m5, tick)
      else
        (m1, tick)
    else
      (m, none)
  | Msg.other => (m, none)

/-- Go `func (m model) Init() tea.Cmd`.  The receiver is a value, so the
assignment `m.running = true` changes the method's own copy only.  The first
component is that local copy as it stands when the method returns (Go drops
it); the second is the returned command. -/
def Init (m : model) : model × Option Cmd :=
  let m1 : model := { m with running := true }
  (m1, tick)

/-- The composite literal `initialModel` of `main`; the fields it does not
mention (`running`, `width`, `height`) take Go's zero values. -/
def initialModel : model :=
  { timerDuration := 25
    remaining := 25
    timerCycle := 0
    timerType := workSession
    running := false
    width := 0
    height := 0 }

/-- The program as it stands after start-up: the model handed to
`tea.NewProgram`, which `Init` (called on a copy) cannot change, and the command
`Init` returns. -/
def startup : model × Option Cmd :=
  (initialModel, (Init initialModel).2)

/-- The state after delivering `k` tick messages in a row. -/
def ticks : Nat → model → model
  | 0, m => m
  | k + 1, m => (Update (ticks k m) Msg.tickMsg).1

/-- The kinds seen at the start and after each of the first `k` ticks. -/
def kindTrace (k : Nat) (m : model) : List timerType :=
  (List.range (k + 1)).map (fun i => (ticks i m).timerType)

/-- The states reached from `m` by delivering the messages of `msgs` in order. -/
def run (m : model) : List Msg → model
  | [] => m
  | msg :: msgs => run (Update m msg).1 msgs

/-! ### The parts of `View` that compute text from numbers -/

/-- Modelled from the spec: the verb `%02d` of `fmt.Sprintf` (Go's standard
library, not part of the repository): the decimal digits of `n`, zero-padded to
width 2, where a minus sign counts towards the width. -/
def sprintf02d (n : Int) : String :=
  if n < 0 then "-" ++ Nat.repr n.natAbs
  else if n < 10 then "0" ++ Nat.repr n.toNat
  else Nat.repr n.toNat

/-- The local `timerDisplay` of `View`: `fmt.Sprintf("%02d:%02d", minutes,
seconds)` with `minutes := m.remaining / 60` and `seconds := m.remaining % 60`
(Go's `/` and `%` truncate towards zero). -/
def timerDisplay (m : model) : String :=
  let minutes := Int.tdiv m.remaining 60
  let seconds := Int.tmod m.remaining 60
  sprintf02d minutes ++ ":" ++ sprintf02d seconds

/-- Reading a five-character text `MM:SS` back as `minutes * 60 + seconds`;
`none` for a text of any other shape.  It is the reader the round-trip property
of the time text is stated with and has no counterpart in the program. -/
def readMMSS (s : String) : Option Nat :=
  match s.data with
  | [a, b, sep, c, d] =>
    if a.isDigit ∧ b.isDigit ∧ sep = ':' ∧ c.isDigit ∧ d.isDigit then
      some (((a.toNat - 48) * 10 + (b.toNat - 48)) * 60 + ((c.toNat - 48) * 10 + (d.toNat - 48)))
    else none
  | _ => none

/-- Go `int` arithmetic on a 64-bit target: a result outside the signed 64-bit
range wraps around (two's complement). -/
def wrapInt (x : Int) : Int := Int.bmod x (2 ^ 64)

/-- The local `padding` of `View`: `(m.height - 7) / 2`, the subtraction in
64-bit `int` arithmetic, the division truncating towards zero. -/
def padding (m : model) : Int :=
  Int.tdiv (wrapInt (m.height - 7)) 2

/-- The loop `for i := 0; i < padding; i++ { emptyLine += "\n" }`: it appends
one newline per iteration, and runs `padding` times when `padding` is positive
and not at all otherwise; `n` is the number of iterations still to run. -/
def appendNewlines : Nat → String → String
  | 0, s => s
  | n + 1, s => appendNewlines n (s ++ "\n")

/-- The local `emptyLine` of `View` after the loop: it starts as `"\n"`. -/
def emptyLine (m : model) : String :=
  appendNewlines (padding m).toNat "\n"

/-! ### The event loop around `Update` -/

/-- A configuration of the event loop: the current model and the number of ticks
that have been scheduled and not yet delivered. -/
abbrev Config := model × Nat

/-- One more pending tick when the command is the tick command. -/
def scheduled (cmd : Option Cmd) : Nat :=
  if cmd = some Cmd.tick then 1 else 0

/-- One step of the event loop, as the single-tick-chain property describes it
(the loop itself belongs to Bubble Tea).  Delivering a tick needs a pending tick
and removes it; every message is handed to `Update`, and a tick command it
returns adds one pending tick.  `none` when a tick is to be delivered and none
is pending. -/
def stepLoop (c : Config) (msg : Msg) : Option Config :=
  if msg = Msg.tickMsg then
    if c.2 = 0 then none
    else some ((Update c.1 msg).1, c.2 - 1 + scheduled (Update c.1 msg).2)
  else
    some ((Update c.1 msg).1, c.2 + scheduled (Update c.1 msg).2)

/-- The configuration after the steps for `msgs`, in order; `none` when one of
them cannot be taken. -/
def runLoop (c : Config) : List Msg → Option Config
  | [] => some c
  | msg :: msgs =>
    match stepLoop c msg with
    | some c1 => runLoop c1 msgs
    | none => none

/-- The configuration the event loop starts in: the start-up model, and one
pending tick, the one `Init` schedules. -/
def startConfig : Config :=
  (startup.1, scheduled startup.2)

/-- The message is an `s` pressed on a stopped timer while a tick is pending. -/
def startsWhilePending (c : Config) (msg : Msg) : Bool :=
  decide (msg = Msg.KeyMsg "s") && !c.1.running && decide (0 < c.2)

/-- No step of the run for `msgs` from `c` is an `s` pressed on a stopped timer
while a tick is pending. -/
def calmRun (c : Config) : List Msg → Bool
  | [] => true
  | msg :: msgs =>
    !startsWhilePending c msg &&
      match stepLoop c msg with
      | some c1 => calmRun c1 msgs
      | none => true

/-! ### Well-formed states -/

/-- Well-formed timer state: the kind is one of the three constants, the
duration is the one that belongs to the kind, and `remaining` lies between 1 and
the duration. -/
def wellFormed (m : model) : Prop :=
  ((m.timerType = workSession ∧ m.timerDuration = 25) ∨
    (m.timerType = shortBreak ∧ m.timerDuration = 5) ∨
    (m.timerType = longBreak ∧ m.timerDuration = 30)) ∧
  1 ≤ m.remaining ∧ m.remaining ≤ m.timerDuration

/-- Well-formedness can be checked by computation. -/
instance (m : model) : Decidable (wellFormed m) := by
  unfold wellFormed
  infer_instance

/-! ## Auxiliary facts about a single tick and about runs of ticks -/

/-- A tick on a running timer with more than one second left only counts down. -/
lemma Update_tick_countdown (m : model) (hr : m.running = true) (h : 1 < m.remaining) :
    Update m Msg.tickMsg = ({ m with remaining := m.remaining - 1 }, some Cmd.tick) := by
  have h0 : 0 < m.remaining := by omega
  have h1 : ¬ (m.remaining - 1 = 0) := by omega
  simp [Update, tick, hr, h0, h1]

/-- A tick on a running timer with exactly one second left runs the kind switch
and restarts the countdown from the new duration. -/
lemma Update_tick_last (m : model) (hr : m.running = true) (h : m.remaining = 1) :
    Update m Msg.tickMsg =
      ({ switchTimerType { m with remaining := 0, running := false } with
          remaining := (switchTimerType { m with remaining := 0, running := false }).timerDuration
          running := true }, some Cmd.tick) := by
  simp [Update, tick, hr, h]

/-- A tick on a timer that is not running, or has nothing left, changes nothing. -/
lemma Update_tick_stale (m : model) (h : m.running = false ∨ m.remaining ≤ 0) :
    Update m Msg.tickMsg = (m, none) := by
  rcases h with h | h
  · simp [Update, h]
  · have h0 : ¬ (0 < m.remaining) := by omega
    simp [Update, h0]

/-- Ticks do not look at the terminal size. -/
lemma Update_tick_resize (m : model) (w h : Int) :
    Update { m with width := w, height := h } Msg.tickMsg =
      ({ (Update m Msg.tickMsg).1 with width := w, height := h }, (Update m Msg.tickMsg).2) := by
  simp only [Update, switchTimerType]
  split_ifs <;> rfl

/-- Runs of ticks do not look at the terminal size. -/
lemma ticks_resize (k : Nat) (m : model) (w h : Int) :
    ticks k { m with width := w, height := h } = { ticks k m with width := w, height := h } := by
  induction k with
  | zero => rfl
  | succ k ih => simp only [ticks, ih, Update_tick_resize]

/-- While more ticks remain than have been delivered, a running timer has only
counted down. -/
lemma ticks_countdown (m : model) (hr : m.running = true) (k : Nat)
    (hk : (k : Int) < m.remaining) :
    ticks k m = { m with remaining := m.remaining - (k : Int) } := by
  induction k with
  | zero => simp [ticks]
  | succ k ih =>
    have hk1 : (k : Int) < m.remaining := by push_cast at hk; omega
    have hgt : 1 < m.remaining - (k : Int) := by push_cast at hk; omega
    simp only [ticks, ih hk1]
    rw [Update_tick_countdown _ (by exact hr) (by exact hgt)]
    simp only [model.mk.injEq, true_and, and_true]
    push_cast
    omega

/-- The state after the last tick of a countdown: `ticks n` of a running timer
with `n >= 1` seconds left is the last-second tick applied to the timer with one
second left. -/
lemma ticks_last (m : model) (hr : m.running = true) (n : Nat) (hn : m.remaining = (n : Int))
    (h1 : 1 ≤ n) :
    ticks n m = (Update { m with remaining := 1 } Msg.tickMsg).1 := by
  obtain ⟨k, rfl⟩ : ∃ k, n = k + 1 := ⟨n - 1, by omega⟩
  have hk : (k : Int) < m.remaining := by rw [hn]; push_cast; omega
  have hone : m.remaining - (k : Int) = 1 := by rw [hn]; push_cast; omega
  simp only [ticks, ticks_countdown m hr k hk, hone]

/-! ## Auxiliary facts about the time text, the blank-line block and the event loop -/

/-- For a number below 100 the `%02d` text is its tens digit and its units
digit. -/
lemma sprintf02d_two_digits :
    ∀ n : Nat, n < 100 →
      sprintf02d (n : Int) = String.mk [Nat.digitChar (n / 10), Nat.digitChar (n % 10)] := by
  decide

/-- The decimal digit characters are digits, with code `48 + k`. -/
lemma digitChar_spec :
    ∀ k : Nat, k < 10 → (Nat.digitChar k).isDigit = true ∧ (Nat.digitChar k).toNat - 48 = k := by
  decide

/-- Every message takes a well-formed state to a well-formed state. -/
lemma Update_wellFormed (m : model) (msg : Msg) (hwf : wellFormed m) :
    wellFormed (Update m msg).1 := by
  cases msg with
  | WindowSizeMsg w h => exact hwf
  | KeyMsg key =>
    simp only [Update]
    split_ifs <;> exact hwf
  | tickMsg =>
    obtain ⟨hk, h1, h2⟩ := hwf
    cases hr : m.running
    · rw [Update_tick_stale m (Or.inl hr)]
      exact ⟨hk, h1, h2⟩
    · by_cases hone : m.remaining = 1
      · rw [Update_tick_last m hr hone]
        rcases hk with ⟨hk, hd⟩ | ⟨hk, hd⟩ | ⟨hk, hd⟩
        · by_cases hc : m.timerCycle < 3 <;> simp [wellFormed, switchTimerType, hk, hc]
        · simp [wellFormed, switchTimerType, hk]
        · simp [wellFormed, switchTimerType, hk]
      · rw [Update_tick_countdown m hr (by omega)]
        exact ⟨hk, by show 1 ≤ m.remaining - 1; omega, by show m.remaining - 1 ≤ m.timerDuration; omega⟩
  | other => exact hwf

/-- Runs of messages keep a well-formed state well formed. -/
lemma run_wellFormed (msgs : List Msg) : ∀ m : model, wellFormed m → wellFormed (run m msgs) := by
  induction msgs with
  | nil => intro m h; exact h
  | cons msg msgs ih => intro m h; exact ih _ (Update_wellFormed m msg h)

/-- A message that is not a tick gets the tick command only as an `s` on a
stopped timer. -/
lemma Update_tick_cmd_of_not_tickMsg (m : model) (msg : Msg) (hne : msg ≠ Msg.tickMsg)
    (hcmd : (Update m msg).2 = some Cmd.tick) : msg = Msg.KeyMsg "s" ∧ m.running = false := by
  cases msg with
  | WindowSizeMsg w h => simp [Update] at hcmd
  | KeyMsg key =>
    by_cases hs : key = "s"
    · subst hs
      cases hr : m.running
      · exact ⟨rfl, rfl⟩
      · simp [Update, hr] at hcmd
    · by_cases hp : key = "p"
      · subst hp
        simp [Update] at hcmd
      · by_cases hq : key = "q"
        · subst hq
          simp [Update] at hcmd
        · simp [Update, hs, hp, hq] at hcmd
  | tickMsg => exact absurd rfl hne
  | other => simp [Update] at hcmd

/-- A command schedules at most one tick. -/
lemma scheduled_le_one (cmd : Option Cmd) : scheduled cmd ≤ 1 := by
  unfold scheduled
  split_ifs <;> omega

/-- A step that is not an `s` on a stopped timer with a tick pending keeps the
number of pending ticks at most one. -/
lemma stepLoop_pending_le_one (c c1 : Config) (msg : Msg) (hc : c.2 ≤ 1)
    (hcalm : startsWhilePending c msg = false) (hstep : stepLoop c msg = some c1) :
    c1.2 ≤ 1 := by
  unfold stepLoop at hstep
  by_cases hmsg : msg = Msg.tickMsg
  · rw [if_pos hmsg] at hstep
    by_cases hz : c.2 = 0
    · rw [if_pos hz] at hstep
      exact absurd hstep (by simp)
    · rw [if_neg hz] at hstep
      have h1 := scheduled_le_one (Update c.1 msg).2
      have hc1 : c1 = ((Update c.1 msg).1, c.2 - 1 + scheduled (Update c.1 msg).2) :=
        (Option.some.inj hstep).symm
      rw [hc1]
      show c.2 - 1 + scheduled (Update c.1 msg).2 ≤ 1
      omega
  · rw [if_neg hmsg] at hstep
    have hc1 : c1 = ((Update c.1 msg).1, c.2 + scheduled (Update c.1 msg).2) :=
      (Option.some.inj hstep).symm
    rw [hc1]
    show c.2 + scheduled (Update c.1 msg).2 ≤ 1
    by_cases hcmd : (Update c.1 msg).2 = some Cmd.tick
    · obtain ⟨hs, hr⟩ := Update_tick_cmd_of_not_tickMsg c.1 msg hmsg hcmd
      have hz : c.2 = 0 := by
        by_contra hpos
        have : startsWhilePending c msg = true := by
          simp [startsWhilePending, hs, hr]
          omega
        rw [this] at hcalm
        exact absurd hcalm (by decide)
      have h1 := scheduled_le_one (Update c.1 msg).2
      omega
    · have h0 : scheduled (Update c.1 msg).2 = 0 := by simp [scheduled, hcmd]
      omega

/-- Along a run without an `s` on a stopped timer while a tick is pending, the
number of pending ticks stays at most one. -/
lemma runLoop_pending_le_one (msgs : List Msg) :
    ∀ c c1 : Config, c.2 ≤ 1 → calmRun c msgs = true → runLoop c msgs = some c1 → c1.2 ≤ 1 := by
  induction msgs with
  | nil =>
    intro c c1 hc _ hrun
    have : c1 = c := (Option.some.inj hrun).symm
    rw [this]
    exact hc
  | cons msg msgs ih =>
    intro c c1 hc hcalm hrun
    simp only [calmRun, runLoop] at hcalm hrun
    cases hstep : stepLoop c msg with
    | none => rw [hstep] at hrun; exact absurd hrun (by simp)
    | some c2 =>
      rw [hstep] at hrun hcalm
      simp only [Bool.and_eq_true, Bool.not_eq_true'] at hcalm
      exact ih c2 c1 (stepLoop_pending_le_one c c2 msg hc hcalm.1 hstep) hcalm.2 hrun

/-- The loop of `emptyLine` appends `n` newline characters. -/
lemma appendNewlines_eq (n : Nat) :
    ∀ s : String, appendNewlines n s = s ++ String.mk (List.replicate n '\n') := by
  induction n with
  | zero =>
    intro s
    apply String.ext
    simp [appendNewlines]
  | succ n ih =>
    intro s
    rw [appendNewlines, ih]
    apply String.ext
    simp [List.replicate_succ]

/-- After the loop `emptyLine` is one newline more than the loop has run. -/
lemma emptyLine_eq (m : model) :
    emptyLine m = String.mk (List.replicate ((padding m).toNat + 1) '\n') := by
  rw [emptyLine, appendNewlines_eq]
  apply String.ext
  simp [List.replicate_succ]

/-- Inside the signed 64-bit range nothing wraps. -/
lemma wrapInt_of_inRange (x : Int) (h1 : -2 ^ 63 ≤ x) (h2 : x < 2 ^ 63) : wrapInt x = x := by
  unfold wrapInt Int.bmod
  norm_num
  omega

/-- The number of loop iterations in terms of floor division, when `m.height -
7` does not wrap: the truncating quotient and the floor quotient agree when the
floor quotient is not negative, and the loop does not run when it is negative. -/
lemma padding_toNat (m : model) (h1 : -2 ^ 63 + 7 ≤ m.height) (h2 : m.height < 2 ^ 63) :
    (0 ≤ Int.fdiv (m.height - 7) 2 → (padding m).toNat = (Int.fdiv (m.height - 7) 2).toNat) ∧
      (Int.fdiv (m.height - 7) 2 < 0 → (padding m).toNat = 0) := by
  have hw : wrapInt (m.height - 7) = m.height - 7 :=
    wrapInt_of_inRange _ (by omega) (by omega)
  have hf : Int.fdiv (m.height - 7) 2 = (m.height - 7) / 2 := Int.fdiv_eq_ediv _ (by decide)
  rw [padding, hw, hf]
  by_cases hx : 0 ≤ m.height - 7
  · rw [Int.tdiv_eq_ediv hx (by decide)]
    exact ⟨fun _ => rfl, fun hneg => by omega⟩
  · have hnn : 0 ≤ -(m.height - 7) := by omega
    have ht : Int.tdiv (m.height - 7) 2 = -((-(m.height - 7)) / 2) := by
      rw [← Int.tdiv_eq_ediv hnn (by decide), Int.neg_tdiv, neg_neg]
    rw [ht]
    exact ⟨fun hpos => by omega, fun _ => by omega⟩

/-! ## Properties -/

/-- C1: if `0 <= remaining <= timerDuration` holds in a state, it holds again in
the state `Update` returns, whatever the message (tick, any key, any resize, or
a message of another type). -/
theorem Update_preserves_remaining_bounds (m : model) (msg : Msg)
    (h0 : 0 ≤ m.remaining) (h1 : m.remaining ≤ m.timerDuration) :
    0 ≤ (Update m msg).1.remaining ∧
      (Update m msg).1.remaining ≤ (Update m msg).1.timerDuration := by
  cases msg with
  | WindowSizeMsg w h => exact ⟨h0, h1⟩
  | KeyMsg key =>
    simp only [Update]
    split_ifs <;> exact ⟨h0, h1⟩
  | tickMsg =>
    simp only [Update, switchTimerType]
    split_ifs <;> simp_all <;> omega
  | other => exact ⟨h0, h1⟩

/-- Witness for C1: the last second of the fourth work session; the tick moves to
the long break with `remaining = timerDuration = 30`. -/
theorem Update_preserves_remaining_bounds_witness :
    (0 : Int) ≤ (⟨25, 1, true, 3, workSession, 80, 24⟩ : model).remaining ∧
      (⟨25, 1, true, 3, workSession, 80, 24⟩ : model).remaining ≤
        (⟨25, 1, true, 3, workSession, 80, 24⟩ : model).timerDuration ∧
      0 ≤ (Update ⟨25, 1, true, 3, workSession, 80, 24⟩ Msg.tickMsg).1.remaining ∧
      (Update ⟨25, 1, true, 3, workSession, 80, 24⟩ Msg.tickMsg).1.remaining ≤
        (Update ⟨25, 1, true, 3, workSession, 80, 24⟩ Msg.tickMsg).1.timerDuration :=
  ⟨by decide, by decide,
    Update_preserves_remaining_bounds ⟨25, 1, true, 3, workSession, 80, 24⟩ Msg.tickMsg
      (by decide) (by decide)⟩

/-- C2: countdown exactness.  For a running timer with `remaining = n >= 1`, the
state after `k < n` ticks is the starting state with `remaining = n - k` (every
other field as it was), each of the `n` tick calls returns the tick command, and
the `n`-th tick performs the session transition (work to short break while
`timerCycle < 3`, work to long break otherwise, either break to work).  In
particular from (work, 25, 25, running, cycle 0) the kind is work after each of
the first 24 ticks and the 25th tick gives (short break, 5, 5, running, cycle
1). -/
theorem countdown_exact :
    (∀ (m : model) (n : Nat), m.running = true → m.remaining = (n : Int) → 1 ≤ n →
      (∀ k : Nat, k < n →
        ticks k m = { m with remaining := (n : Int) - (k : Int) } ∧
        (Update (ticks k m) Msg.tickMsg).2 = some Cmd.tick) ∧
      (m.timerType = workSession → m.timerCycle < 3 →
        ticks n m = { m with timerType := shortBreak, timerDuration := 5, remaining := 5,
                             timerCycle := m.timerCycle + 1 }) ∧
      (m.timerType = workSession → ¬ m.timerCycle < 3 →
        ticks n m = { m with timerType := longBreak, timerDuration := 30, remaining := 30,
                             timerCycle := 0 }) ∧
      (m.timerType = shortBreak ∨ m.timerType = longBreak →
        ticks n m = { m with timerType := workSession, timerDuration := 25,
                             remaining := 25 })) ∧
    (∀ w h : Int,
      (∀ k : Nat, k < 25 →
        (ticks k ⟨25, 25, true, 0, workSession, w, h⟩).timerType = workSession) ∧
      ticks 25 ⟨25, 25, true, 0, workSession, w, h⟩ = ⟨5, 5, true, 1, shortBreak, w, h⟩) := by
  have gen : ∀ (m : model) (n : Nat), m.running = true → m.remaining = (n : Int) → 1 ≤ n →
      (∀ k : Nat, k < n →
        ticks k m = { m with remaining := (n : Int) - (k : Int) } ∧
        (Update (ticks k m) Msg.tickMsg).2 = some Cmd.tick) ∧
      (m.timerType = workSession → m.timerCycle < 3 →
        ticks n m = { m with timerType := shortBreak, timerDuration := 5, remaining := 5,
                             timerCycle := m.timerCycle + 1 }) ∧
      (m.timerType = workSession → ¬ m.timerCycle < 3 →
        ticks n m = { m with timerType := longBreak, timerDuration := 30, remaining := 30,
                             timerCycle := 0 }) ∧
      (m.timerType = shortBreak ∨ m.timerType = longBreak →
        ticks n m = { m with timerType := workSession, timerDuration := 25,
                             remaining := 25 }) := by
    intro m n hr hn h1
    have hlast := ticks_last m hr n hn h1
    rw [Update_tick_last _ (by exact hr) rfl] at hlast
    refine ⟨?_, ?_, ?_, ?_⟩
    · intro k hk
      have hk' : (k : Int) < m.remaining := by rw [hn]; exact_mod_cast hk
      have hst := ticks_countdown m hr k hk'
      rw [hn] at hst
      refine ⟨hst, ?_⟩
      rw [hst]
      by_cases hlt : 1 < (n : Int) - (k : Int)
      · rw [Update_tick_countdown _ (by exact hr) (by exact hlt)]
      · have h1' : (n : Int) - (k : Int) = 1 := by omega
        rw [Update_tick_last _ (by exact hr) (by exact h1')]
    · intro hk hc
      rw [hlast]
      simp [switchTimerType, hk, hc, hr]
    · intro hk hc
      rw [hlast]
      simp [switchTimerType, hk, hc, hr]
    · intro hk
      rw [hlast]
      rcases hk with hk | hk <;> simp [switchTimerType, hk, hr]
  refine ⟨gen, ?_⟩
  intro w h
  obtain ⟨hcount, hshort, -, -⟩ :=
    gen ⟨25, 25, true, 0, workSession, w, h⟩ 25 rfl rfl (by decide)
  refine ⟨?_, ?_⟩
  · intro k hk
    rw [(hcount k hk).1]
  · exact hshort rfl (by show (0 : Int) < 3; decide)

/-- Witness for C2 at a running work session with three seconds left on an 80 by
24 terminal: two ticks leave one second, the third starts the short break. -/
theorem countdown_exact_witness :
    (⟨3, 3, true, 0, workSession, 80, 24⟩ : model).running = true ∧
      ticks 2 ⟨3, 3, true, 0, workSession, 80, 24⟩ = ⟨3, 1, true, 0, workSession, 80, 24⟩ ∧
      (Update (ticks 2 ⟨3, 3, true, 0, workSession, 80, 24⟩) Msg.tickMsg).2 = some Cmd.tick ∧
      ticks 3 ⟨3, 3, true, 0, workSession, 80, 24⟩ = ⟨5, 5, true, 1, shortBreak, 80, 24⟩ :=
  have h := countdown_exact.1 ⟨3, 3, true, 0, workSession, 80, 24⟩ 3 rfl rfl (by decide)
  ⟨rfl, (h.1 2 (by decide)).1, (h.1 2 (by decide)).2, h.2.1 rfl (by decide)⟩

/-- C3: work-session completion.  A tick on a running work session with one
second left returns, while `timerCycle < 3`, the short break (duration and
remaining 5, cycle counter one higher) and otherwise the long break (duration
and remaining 30, cycle counter 0); the timer is running, width and height are
as before, and the command is the tick command. -/
theorem work_session_completion (m : model) (hr : m.running = true)
    (hk : m.timerType = workSession) (h1 : m.remaining = 1) :
    Update m Msg.tickMsg =
        (if m.timerCycle < 3 then
          { m with timerType := shortBreak, timerDuration := 5, remaining := 5,
                   timerCycle := m.timerCycle + 1 }
        else
          { m with timerType := longBreak, timerDuration := 30, remaining := 30,
                   timerCycle := 0 },
        some Cmd.tick) ∧
      (Update m Msg.tickMsg).1.running = true ∧
      (Update m Msg.tickMsg).1.width = m.width ∧
      (Update m Msg.tickMsg).1.height = m.height := by
  rw [Update_tick_last m hr h1]
  by_cases hc : m.timerCycle < 3 <;> simp [switchTimerType, hk, hc, hr]

/-- Witness for C3: the third work session ends in a short break with cycle
counter 3, the fourth in a long break with cycle counter 0. -/
theorem work_session_completion_witness :
    (Update ⟨25, 1, true, 2, workSession, 80, 24⟩ Msg.tickMsg =
        (⟨5, 5, true, 3, shortBreak, 80, 24⟩, some Cmd.tick)) ∧
      (Update ⟨25, 1, true, 3, workSession, 80, 24⟩ Msg.tickMsg =
        (⟨30, 30, true, 0, longBreak, 80, 24⟩, some Cmd.tick)) :=
  ⟨(work_session_completion ⟨25, 1, true, 2, workSession, 80, 24⟩ rfl rfl rfl).1,
   (work_session_completion ⟨25, 1, true, 3, workSession, 80, 24⟩ rfl rfl rfl).1⟩

/-- C4: break completion.  A tick on a running short or long break with one
second left returns the work session with duration and remaining 25; the cycle
counter, width and height are as before, the timer is running, and the command
is the tick command. -/
theorem break_completion (m : model) (hr : m.running = true)
    (hk : m.timerType = shortBreak ∨ m.timerType = longBreak) (h1 : m.remaining = 1) :
    Update m Msg.tickMsg =
        ({ m with timerType := workSession, timerDuration := 25, remaining := 25 },
          some Cmd.tick) ∧
      (Update m Msg.tickMsg).1.running = true ∧
      (Update m Msg.tickMsg).1.timerCycle = m.timerCycle ∧
      (Update m Msg.tickMsg).1.width = m.width ∧
      (Update m Msg.tickMsg).1.height = m.height := by
  rw [Update_tick_last m hr h1]
  rcases hk with hk | hk <;> simp [switchTimerType, hk, hr]

/-- Witness for C4: a short break and a long break, each with one second left,
both end in a 25-second work session with the cycle counter kept. -/
theorem break_completion_witness :
    (Update ⟨5, 1, true, 2, shortBreak, 80, 24⟩ Msg.tickMsg =
        (⟨25, 25, true, 2, workSession, 80, 24⟩, some Cmd.tick)) ∧
      (Update ⟨30, 1, true, 0, longBreak, 80, 24⟩ Msg.tickMsg =
        (⟨25, 25, true, 0, workSession, 80, 24⟩, some Cmd.tick)) :=
  ⟨(break_completion ⟨5, 1, true, 2, shortBreak, 80, 24⟩ rfl (Or.inl rfl) rfl).1,
   (break_completion ⟨30, 1, true, 0, longBreak, 80, 24⟩ rfl (Or.inr rfl) rfl).1⟩

set_option maxRecDepth 100000 in
/-- C5: cycle wraparound.  From (work, 25, 25, running, cycle 0), with ticks
only, the kinds seen are 25 seconds of work, 5 of short break, three times over,
then 25 of work and 30 of long break, then work again; the first three
work-session completions (ticks 25, 55, 85) give the short break with cycle
counter 1, 2, 3, the fourth (tick 115) gives (long break, 30, 30, running, cycle
0), and after 145 ticks the state is the starting state. -/
theorem cycle_wraparound (w h : Int) :
    kindTrace 145 ⟨25, 25, true, 0, workSession, w, h⟩ =
        List.replicate 25 workSession ++ List.replicate 5 shortBreak ++
        List.replicate 25 workSession ++ List.replicate 5 shortBreak ++
        List.replicate 25 workSession ++ List.replicate 5 shortBreak ++
        List.replicate 25 workSession ++ List.replicate 30 longBreak ++ [workSession] ∧
      ticks 25 ⟨25, 25, true, 0, workSession, w, h⟩ = ⟨5, 5, true, 1, shortBreak, w, h⟩ ∧
      ticks 55 ⟨25, 25, true, 0, workSession, w, h⟩ = ⟨5, 5, true, 2, shortBreak, w, h⟩ ∧
      ticks 85 ⟨25, 25, true, 0, workSession, w, h⟩ = ⟨5, 5, true, 3, shortBreak, w, h⟩ ∧
      ticks 114 ⟨25, 25, true, 0, workSession, w, h⟩ = ⟨25, 1, true, 3, workSession, w, h⟩ ∧
      ticks 115 ⟨25, 25, true, 0, workSession, w, h⟩ = ⟨30, 30, true, 0, longBreak, w, h⟩ ∧
      ticks 145 ⟨25, 25, true, 0, workSession, w, h⟩ = ⟨25, 25, true, 0, workSession, w, h⟩ := by
  have hwh : ∀ k : Nat, ticks k ⟨25, 25, true, 0, workSession, w, h⟩ =
      { ticks k ⟨25, 25, true, 0, workSession, 0, 0⟩ with width := w, height := h } :=
    fun k => ticks_resize k ⟨25, 25, true, 0, workSession, 0, 0⟩ w h
  have htrace : kindTrace 145 ⟨25, 25, true, 0, workSession, w, h⟩ =
      kindTrace 145 ⟨25, 25, true, 0, workSession, 0, 0⟩ := by
    simp only [kindTrace, hwh]
  refine ⟨?_, ?_, ?_, ?_, ?_, ?_, ?_⟩
  · rw [htrace]; decide
  · rw [hwh, show ticks 25 ⟨25, 25, true, 0, workSession, 0, 0⟩ =
      ⟨5, 5, true, 1, shortBreak, 0, 0⟩ by decide]
  · rw [hwh, show ticks 55 ⟨25, 25, true, 0, workSession, 0, 0⟩ =
      ⟨5, 5, true, 2, shortBreak, 0, 0⟩ by decide]
  · rw [hwh, show ticks 85 ⟨25, 25, true, 0, workSession, 0, 0⟩ =
      ⟨5, 5, true, 3, shortBreak, 0, 0⟩ by decide]
  · rw [hwh, show ticks 114 ⟨25, 25, true, 0, workSession, 0, 0⟩ =
      ⟨25, 1, true, 3, workSession, 0, 0⟩ by decide]
  · rw [hwh, show ticks 115 ⟨25, 25, true, 0, workSession, 0, 0⟩ =
      ⟨30, 30, true, 0, longBreak, 0, 0⟩ by decide]
  · rw [hwh, show ticks 145 ⟨25, 25, true, 0, workSession, 0, 0⟩ =
      ⟨25, 25, true, 0, workSession, 0, 0⟩ by decide]

/-- C6: idempotence of start.  For every state, pressing `s` twice gives the same
state as pressing it once, and the second press returns no command. -/
theorem start_idempotent (m : model) :
    (Update (Update m (Msg.KeyMsg "s")).1 (Msg.KeyMsg "s")).1 = (Update m (Msg.KeyMsg "s")).1 ∧
      (Update (Update m (Msg.KeyMsg "s")).1 (Msg.KeyMsg "s")).2 = none := by
  cases hr : m.running <;> simp [Update, hr]

/-- C7: pause then stale tick.  For every state, pressing `p` returns the state
with `running = false`, every other field as it was, and no command; a tick
delivered to that paused state returns it as it is (same `remaining`, still not
running) with no command. -/
theorem pause_then_stale_tick (m : model) :
    Update m (Msg.KeyMsg "p") = ({ m with running := false }, none) ∧
      Update (Update m (Msg.KeyMsg "p")).1 Msg.tickMsg = ((Update m (Msg.KeyMsg "p")).1, none) ∧
      (Update (Update m (Msg.KeyMsg "p")).1 Msg.tickMsg).1.remaining = m.remaining ∧
      (Update (Update m (Msg.KeyMsg "p")).1 Msg.tickMsg).1.running = false := by
  have hp : Update m (Msg.KeyMsg "p") = ({ m with running := false }, none) := by
    simp [Update]
  have ht : Update { m with running := false } Msg.tickMsg = ({ m with running := false }, none) :=
    Update_tick_stale _ (Or.inl rfl)
  refine ⟨hp, ?_, ?_, ?_⟩ <;> simp only [hp, ht]

/-- C8: a stale tick is a silent no-op.  For every state that is not running or
whose `remaining` is 0 (a running state with `remaining = 0` included), a tick
returns the state as it is, in every field, with no command. -/
theorem stale_tick_noop (m : model) (h : m.running = false ∨ m.remaining = 0) :
    Update m Msg.tickMsg = (m, none) := by
  apply Update_tick_stale
  rcases h with h | h
  · exact Or.inl h
  · exact Or.inr (by omega)

/-- Witness for C8: a running timer stuck at zero, and a paused timer with time
left, both ignore the tick. -/
theorem stale_tick_noop_witness :
    (Update ⟨25, 0, true, 1, workSession, 80, 24⟩ Msg.tickMsg =
        (⟨25, 0, true, 1, workSession, 80, 24⟩, none)) ∧
      (Update ⟨5, 3, false, 1, shortBreak, 80, 24⟩ Msg.tickMsg =
        (⟨5, 3, false, 1, shortBreak, 80, 24⟩, none)) :=
  ⟨stale_tick_noop ⟨25, 0, true, 1, workSession, 80, 24⟩ (Or.inr rfl),
   stale_tick_noop ⟨5, 3, false, 1, shortBreak, 80, 24⟩ (Or.inl rfl)⟩

/-- C9: start then tick.  For every stopped state with `remaining > 1`, pressing
`s` returns the state with `running = true`, every other field as it was, and
the tick command; a tick on that state returns it with `remaining` one lower and
the tick command.  (At (work, 25, 25, stopped, 0): (work, 25, 25, running, 0),
then (work, 25, 24, running, 0).) -/
theorem start_then_tick (m : model) (hr : m.running = false) (h : 1 < m.remaining) :
    Update m (Msg.KeyMsg "s") = ({ m with running := true }, some Cmd.tick) ∧
      Update (Update m (Msg.KeyMsg "s")).1 Msg.tickMsg =
        ({ m with running := true, remaining := m.remaining - 1 }, some Cmd.tick) := by
  have hs : Update m (Msg.KeyMsg "s") = ({ m with running := true }, some Cmd.tick) := by
    simp [Update, tick, hr]
  refine ⟨hs, ?_⟩
  rw [hs]
  exact Update_tick_countdown { m with running := true } rfl h

/-- Witness for C9, the scenario of the specification: from the initial model
(work, 25, 25, stopped, 0), `s` gives (work, 25, 25, running, 0) and one tick
then gives (work, 25, 24, running, 0). -/
theorem start_then_tick_witness :
    initialModel = ⟨25, 25, false, 0, workSession, 0, 0⟩ ∧
      Update initialModel (Msg.KeyMsg "s") =
        (⟨25, 25, true, 0, workSession, 0, 0⟩, some Cmd.tick) ∧
      Update (Update initialModel (Msg.KeyMsg "s")).1 Msg.tickMsg =
        (⟨25, 24, true, 0, workSession, 0, 0⟩, some Cmd.tick) :=
  ⟨rfl, (start_then_tick initialModel rfl (by decide)).1,
    (start_then_tick initialModel rfl (by decide)).2⟩

/-- C10: start-up state.  The model the program starts with, as it stands after
`Init` has run, has kind work session, duration and remaining 25, cycle counter
0 and `running = false`: the assignment in `Init` reaches only the method's own
copy of the model, so the timer starts stopped. -/
theorem startup_state :
    startup.1.timerType = workSession ∧ startup.1.timerDuration = 25 ∧
      startup.1.remaining = 25 ∧ startup.1.timerCycle = 0 ∧ startup.1.running = false ∧
      (Init startup.1).1.running = true ∧ startup.1 = initialModel := by
  decide

/-- C11: formatting.  For `0 <= remaining <= 5999` the time text of `View` has
exactly five characters: the tens and units digit of `remaining / 60`, a colon,
and the tens and units digit of `remaining % 60`; read back as
`minutes * 60 + seconds` it gives `remaining`.  `remaining = 65` renders as
`"01:05"`. -/
theorem timerDisplay_format :
    (∀ m : model, 0 ≤ m.remaining → m.remaining ≤ 5999 →
      timerDisplay m =
          String.mk [Nat.digitChar ((m.remaining / 60).toNat / 10),
                     Nat.digitChar ((m.remaining / 60).toNat % 10), ':',
                     Nat.digitChar ((m.remaining % 60).toNat / 10),
                     Nat.digitChar ((m.remaining % 60).toNat % 10)] ∧
        (timerDisplay m).length = 5 ∧
        readMMSS (timerDisplay m) = some m.remaining.toNat) ∧
    (∀ m : model, m.remaining = 65 → timerDisplay m = "01:05") := by
  have gen : ∀ m : model, 0 ≤ m.remaining → m.remaining ≤ 5999 →
      timerDisplay m =
          String.mk [Nat.digitChar ((m.remaining / 60).toNat / 10),
                     Nat.digitChar ((m.remaining / 60).toNat % 10), ':',
                     Nat.digitChar ((m.remaining % 60).toNat / 10),
                     Nat.digitChar ((m.remaining % 60).toNat % 10)] ∧
        (timerDisplay m).length = 5 ∧
        readMMSS (timerDisplay m) = some m.remaining.toNat := by
    intro m h0 h1
    have hq : Int.tdiv m.remaining 60 = (((m.remaining / 60).toNat : Nat) : Int) := by
      rw [Int.tdiv_eq_ediv h0 (by decide)]; omega
    have hr : Int.tmod m.remaining 60 = (((m.remaining % 60).toNat : Nat) : Int) := by
      rw [Int.tmod_eq_emod h0 (by decide)]; omega
    have hM : (m.remaining / 60).toNat < 100 := by omega
    have hS : (m.remaining % 60).toNat < 60 := by omega
    have hform : timerDisplay m =
          String.mk [Nat.digitChar ((m.remaining / 60).toNat / 10),
                     Nat.digitChar ((m.remaining / 60).toNat % 10), ':',
                     Nat.digitChar ((m.remaining % 60).toNat / 10),
                     Nat.digitChar ((m.remaining % 60).toNat % 10)] := by
      simp only [timerDisplay]
      rw [hq, hr, sprintf02d_two_digits _ hM, sprintf02d_two_digits _ (by omega)]
      rfl
    obtain ⟨a1, a2⟩ := digitChar_spec ((m.remaining / 60).toNat / 10) (by omega)
    obtain ⟨b1, b2⟩ := digitChar_spec ((m.remaining / 60).toNat % 10) (by omega)
    obtain ⟨c1, c2⟩ := digitChar_spec ((m.remaining % 60).toNat / 10) (by omega)
    obtain ⟨d1, d2⟩ := digitChar_spec ((m.remaining % 60).toNat % 10) (by omega)
    refine ⟨hform, ?_, ?_⟩
    · rw [hform]; rfl
    · rw [hform]
      simp only [readMMSS, a1, b1, c1, d1, a2, b2, c2, d2, and_self, if_true]
      congr 1
      omega
  refine ⟨gen, ?_⟩
  intro m h65
  rw [(gen m (by omega) (by omega)).1, h65]
  decide

/-- Witness for C11: 65 seconds render as `01:05`, which reads back as 65, and
the largest value covered, 5999 seconds, reads back as 5999. -/
theorem timerDisplay_format_witness :
    timerDisplay ⟨25, 65, true, 0, workSession, 80, 24⟩ = "01:05" ∧
      readMMSS (timerDisplay ⟨25, 65, true, 0, workSession, 80, 24⟩) = some 65 ∧
      (timerDisplay ⟨5999, 5999, true, 0, workSession, 80, 24⟩).length = 5 ∧
      readMMSS (timerDisplay ⟨5999, 5999, true, 0, workSession, 80, 24⟩) = some 5999 :=
  ⟨timerDisplay_format.2 ⟨25, 65, true, 0, workSession, 80, 24⟩ rfl,
   (timerDisplay_format.1 ⟨25, 65, true, 0, workSession, 80, 24⟩ (by decide) (by decide)).2.2,
   (timerDisplay_format.1 ⟨5999, 5999, true, 0, workSession, 80, 24⟩ (by decide) (by decide)).2.1,
   (timerDisplay_format.1 ⟨5999, 5999, true, 0, workSession, 80, 24⟩ (by decide) (by decide)).2.2⟩

/-- C12: quit.  For every state, pressing `q` returns the state as it is, in
every field, together with the quit command. -/
theorem quit_keeps_state (m : model) :
    Update m (Msg.KeyMsg "q") = (m, some Cmd.Quit) := by
  simp [Update]

/-- C13: resize.  For every state and every width and height (zero and negative
values included), a resize returns the state with `width` and `height` set to
the given values, `timerDuration`, `remaining`, `running`, `timerCycle` and the
kind as they were, and no command. -/
theorem resize_sets_dimensions_only (m : model) (w h : Int) :
    Update m (Msg.WindowSizeMsg w h) = ({ m with width := w, height := h }, none) ∧
      (Update m (Msg.WindowSizeMsg w h)).1.width = w ∧
      (Update m (Msg.WindowSizeMsg w h)).1.height = h ∧
      (Update m (Msg.WindowSizeMsg w h)).1.timerDuration = m.timerDuration ∧
      (Update m (Msg.WindowSizeMsg w h)).1.remaining = m.remaining ∧
      (Update m (Msg.WindowSizeMsg w h)).1.running = m.running ∧
      (Update m (Msg.WindowSizeMsg w h)).1.timerCycle = m.timerCycle ∧
      (Update m (Msg.WindowSizeMsg w h)).1.timerType = m.timerType ∧
      (Update m (Msg.WindowSizeMsg w h)).2 = none :=
  ⟨rfl, rfl, rfl, rfl, rfl, rfl, rfl, rfl, rfl⟩

/-- C14: user input never changes the session.  For every state and every
message that is not a tick (any key, any resize, a message of another type) the
returned state has the kind, `timerDuration`, `remaining` and `timerCycle` of
the input state, so one of these four changes only on a tick; a key other than
`s`, `p`, `q` changes no field and returns no command. -/
theorem input_keeps_session (m : model) (msg : Msg) :
    (msg ≠ Msg.tickMsg →
      (Update m msg).1.timerType = m.timerType ∧
      (Update m msg).1.timerDuration = m.timerDuration ∧
      (Update m msg).1.remaining = m.remaining ∧
      (Update m msg).1.timerCycle = m.timerCycle) ∧
    (((Update m msg).1.timerType ≠ m.timerType ∨
      (Update m msg).1.timerDuration ≠ m.timerDuration ∨
      (Update m msg).1.remaining ≠ m.remaining ∨
      (Update m msg).1.timerCycle ≠ m.timerCycle) → msg = Msg.tickMsg) ∧
    (∀ key : String, msg = Msg.KeyMsg key → key ≠ "s" → key ≠ "p" → key ≠ "q" →
      Update m msg = (m, none)) := by
  have hkeep : msg ≠ Msg.tickMsg →
      (Update m msg).1.timerType = m.timerType ∧
      (Update m msg).1.timerDuration = m.timerDuration ∧
      (Update m msg).1.remaining = m.remaining ∧
      (Update m msg).1.timerCycle = m.timerCycle := by
    intro hne
    cases msg with
    | WindowSizeMsg w h => exact ⟨rfl, rfl, rfl, rfl⟩
    | KeyMsg key =>
      simp only [Update]
      split_ifs <;> exact ⟨rfl, rfl, rfl, rfl⟩
    | tickMsg => exact absurd rfl hne
    | other => exact ⟨rfl, rfl, rfl, rfl⟩
  refine ⟨hkeep, ?_, ?_⟩
  · intro hchg
    by_contra hne
    obtain ⟨h1, h2, h3, h4⟩ := hkeep hne
    rcases hchg with h | h | h | h
    · exact h h1
    · exact h h2
    · exact h h3
    · exact h h4
  · intro key hmsg hs hp hq
    subst hmsg
    simp [Update, hs, hp, hq]

/-- Witness for C14: `p` on a running short break keeps kind, duration,
remaining and cycle counter, and the unbound key `x` changes nothing at all. -/
theorem input_keeps_session_witness :
    ((Update ⟨5, 3, true, 2, shortBreak, 80, 24⟩ (Msg.KeyMsg "p")).1.timerType = shortBreak ∧
      (Update ⟨5, 3, true, 2, shortBreak, 80, 24⟩ (Msg.KeyMsg "p")).1.timerDuration = 5 ∧
      (Update ⟨5, 3, true, 2, shortBreak, 80, 24⟩ (Msg.KeyMsg "p")).1.remaining = 3 ∧
      (Update ⟨5, 3, true, 2, shortBreak, 80, 24⟩ (Msg.KeyMsg "p")).1.timerCycle = 2) ∧
    Update ⟨5, 3, true, 2, shortBreak, 80, 24⟩ (Msg.KeyMsg "x") =
      (⟨5, 3, true, 2, shortBreak, 80, 24⟩, none) :=
  ⟨(input_keeps_session ⟨5, 3, true, 2, shortBreak, 80, 24⟩ (Msg.KeyMsg "p")).1 (by decide),
   (input_keeps_session ⟨5, 3, true, 2, shortBreak, 80, 24⟩ (Msg.KeyMsg "x")).2.2 "x" rfl
      (by decide) (by decide) (by decide)⟩

/-- C15: the cycle counter stays in range.  If `0 <= timerCycle <= 3` holds in a
state, it holds in the state `Update` returns, whatever the message. -/
theorem Update_preserves_cycle_range (m : model) (msg : Msg)
    (h0 : 0 ≤ m.timerCycle) (h3 : m.timerCycle ≤ 3) :
    0 ≤ (Update m msg).1.timerCycle ∧ (Update m msg).1.timerCycle ≤ 3 := by
  cases msg with
  | WindowSizeMsg w h => exact ⟨h0, h3⟩
  | KeyMsg key =>
    simp only [Update]
    split_ifs <;> exact ⟨h0, h3⟩
  | tickMsg =>
    simp only [Update, switchTimerType]
    split_ifs <;> simp_all
    all_goals omega
  | other => exact ⟨h0, h3⟩

/-- Witness for C15: the last second of the work session with cycle counter 2
(the counter becomes 3) and with cycle counter 3 (the counter becomes 0). -/
theorem Update_preserves_cycle_range_witness :
    ((0 : Int) ≤ (Update ⟨25, 1, true, 2, workSession, 80, 24⟩ Msg.tickMsg).1.timerCycle ∧
      (Update ⟨25, 1, true, 2, workSession, 80, 24⟩ Msg.tickMsg).1.timerCycle ≤ 3) ∧
    ((0 : Int) ≤ (Update ⟨25, 1, true, 3, workSession, 80, 24⟩ Msg.tickMsg).1.timerCycle ∧
      (Update ⟨25, 1, true, 3, workSession, 80, 24⟩ Msg.tickMsg).1.timerCycle ≤ 3) :=
  ⟨Update_preserves_cycle_range ⟨25, 1, true, 2, workSession, 80, 24⟩ Msg.tickMsg
      (by decide) (by decide),
   Update_preserves_cycle_range ⟨25, 1, true, 3, workSession, 80, 24⟩ Msg.tickMsg
      (by decide) (by decide)⟩

/-- C16: the terminal size does not influence the timer.  Two states that agree
on `timerDuration`, `remaining`, `running`, `timerCycle` and the kind are taken
by every message to states that agree on these five fields, with the same
command. -/
theorem Update_ignores_dimensions (m1 m2 : model) (msg : Msg)
    (hd : m1.timerDuration = m2.timerDuration) (hr : m1.remaining = m2.remaining)
    (hrun : m1.running = m2.running) (hc : m1.timerCycle = m2.timerCycle)
    (hk : m1.timerType = m2.timerType) :
    (Update m1 msg).1.timerDuration = (Update m2 msg).1.timerDuration ∧
      (Update m1 msg).1.remaining = (Update m2 msg).1.remaining ∧
      (Update m1 msg).1.running = (Update m2 msg).1.running ∧
      (Update m1 msg).1.timerCycle = (Update m2 msg).1.timerCycle ∧
      (Update m1 msg).1.timerType = (Update m2 msg).1.timerType ∧
      (Update m1 msg).2 = (Update m2 msg).2 := by
  obtain ⟨d1, r1, run1, c1, k1, w1, h1⟩ := m1
  obtain ⟨d2, r2, run2, c2, k2, w2, h2⟩ := m2
  simp only at hd hr hrun hc hk
  subst hd hr hrun hc hk
  have hm : (⟨d1, r1, run1, c1, k1, w1, h1⟩ : model) =
      { (⟨d1, r1, run1, c1, k1, w2, h2⟩ : model) with width := w1, height := h1 } := rfl
  cases msg with
  | WindowSizeMsg w h => exact ⟨rfl, rfl, rfl, rfl, rfl, rfl⟩
  | KeyMsg key =>
    simp only [Update]
    split_ifs <;> exact ⟨rfl, rfl, rfl, rfl, rfl, rfl⟩
  | tickMsg =>
    rw [hm, Update_tick_resize]
    exact ⟨rfl, rfl, rfl, rfl, rfl, rfl⟩
  | other => exact ⟨rfl, rfl, rfl, rfl, rfl, rfl⟩

/-- Witness for C16: the last second of a work session on an 80 by 24 terminal
and on a terminal of size 0 by -3 end in the same short break with the same
command. -/
theorem Update_ignores_dimensions_witness :
    (Update ⟨25, 1, true, 0, workSession, 80, 24⟩ Msg.tickMsg).1.timerDuration =
        (Update ⟨25, 1, true, 0, workSession, 0, -3⟩ Msg.tickMsg).1.timerDuration ∧
      (Update ⟨25, 1, true, 0, workSession, 80, 24⟩ Msg.tickMsg).1.remaining =
        (Update ⟨25, 1, true, 0, workSession, 0, -3⟩ Msg.tickMsg).1.remaining ∧
      (Update ⟨25, 1, true, 0, workSession, 80, 24⟩ Msg.tickMsg).1.running =
        (Update ⟨25, 1, true, 0, workSession, 0, -3⟩ Msg.tickMsg).1.running ∧
      (Update ⟨25, 1, true, 0, workSession, 80, 24⟩ Msg.tickMsg).1.timerCycle =
        (Update ⟨25, 1, true, 0, workSession, 0, -3⟩ Msg.tickMsg).1.timerCycle ∧
      (Update ⟨25, 1, true, 0, workSession, 80, 24⟩ Msg.tickMsg).1.timerType =
        (Update ⟨25, 1, true, 0, workSession, 0, -3⟩ Msg.tickMsg).1.timerType ∧
      (Update ⟨25, 1, true, 0, workSession, 80, 24⟩ Msg.tickMsg).2 =
        (Update ⟨25, 1, true, 0, workSession, 0, -3⟩ Msg.tickMsg).2 :=
  Update_ignores_dimensions ⟨25, 1, true, 0, workSession, 80, 24⟩
    ⟨25, 1, true, 0, workSession, 0, -3⟩ Msg.tickMsg rfl rfl rfl rfl rfl

/-- C17 fails as stated: the number of pending ticks does not stay at most one.
From the start-up configuration (stopped, one tick pending, the one `Init`
scheduled) an `s` leaves two ticks pending, and delivering both takes
`remaining` from 25 to 23 with two ticks pending again; and after the first tick
has been delivered, `s`, `p`, `s` leaves two ticks pending, so the pause did not
cancel the tick of the first `s`. -/
theorem single_tick_chain_fails :
    runLoop startConfig [Msg.KeyMsg "s"] =
        some (⟨25, 25, true, 0, workSession, 0, 0⟩, 2) ∧
      runLoop startConfig [Msg.KeyMsg "s", Msg.tickMsg, Msg.tickMsg] =
        some (⟨25, 23, true, 0, workSession, 0, 0⟩, 2) ∧
      runLoop startConfig [Msg.tickMsg, Msg.KeyMsg "s", Msg.KeyMsg "p", Msg.KeyMsg "s"] =
        some (⟨25, 25, true, 0, workSession, 0, 0⟩, 2) ∧
      ¬ (∀ (msgs : List Msg) (c : Config), runLoop startConfig msgs = some c → c.2 ≤ 1) := by
  refine ⟨by decide, by decide, by decide, ?_⟩
  intro hall
  have h := hall [Msg.KeyMsg "s"] (⟨25, 25, true, 0, workSession, 0, 0⟩, 2) (by decide)
  exact absurd h (by decide)

/-- C17, amended: starting from the start-up configuration with the tick `Init`
schedules, in every configuration reached by steps none of which is an `s`
pressed on a stopped timer while a tick is pending, at most one tick is
pending; and a pending tick delivered to a stopped timer changes nothing and
leaves no tick pending. -/
theorem calm_runs_single_tick (msgs : List Msg) (c : Config)
    (hcalm : calmRun startConfig msgs = true) (hrun : runLoop startConfig msgs = some c) :
    c.2 ≤ 1 ∧
      (∀ m : model, m.running = false → stepLoop (m, 1) Msg.tickMsg = some (m, 0)) := by
  refine ⟨runLoop_pending_le_one msgs startConfig c (by decide) hcalm hrun, ?_⟩
  intro m hr
  simp [stepLoop, Update_tick_stale m (Or.inl hr), scheduled]

/-- Witness for C17 as amended: the stale first tick, then `s`, `p`, the pending
tick (a no-op on the paused timer), `s` again and one tick; one tick is pending
at the end and `remaining` has gone down by one. -/
theorem calm_runs_single_tick_witness :
    calmRun startConfig [Msg.tickMsg, Msg.KeyMsg "s", Msg.KeyMsg "p", Msg.tickMsg,
        Msg.KeyMsg "s", Msg.tickMsg] = true ∧
      runLoop startConfig [Msg.tickMsg, Msg.KeyMsg "s", Msg.KeyMsg "p", Msg.tickMsg,
        Msg.KeyMsg "s", Msg.tickMsg] = some (⟨25, 24, true, 0, workSession, 0, 0⟩, 1) ∧
      (((⟨25, 24, true, 0, workSession, 0, 0⟩, 1) : Config).2 ≤ 1) :=
  ⟨by decide, by decide,
    (calm_runs_single_tick [Msg.tickMsg, Msg.KeyMsg "s", Msg.KeyMsg "p", Msg.tickMsg,
      Msg.KeyMsg "s", Msg.tickMsg] (⟨25, 24, true, 0, workSession, 0, 0⟩, 1)
      (by decide) (by decide)).1⟩

/-- C18 fails as stated at the smallest 64-bit height: `h - 7` wraps around to a
large positive number, so although the floor quotient `(h - 7) / 2` is negative
the loop runs 4611686018427387900 times and the block is not the single
newline. -/
theorem emptyLine_fails_at_min_height :
    Int.fdiv ((-9223372036854775808 : Int) - 7) 2 < 0 ∧
      padding ⟨25, 25, false, 0, workSession, 0, -9223372036854775808⟩ =
        4611686018427387900 ∧
      (emptyLine ⟨25, 25, false, 0, workSession, 0, -9223372036854775808⟩).length =
        4611686018427387901 ∧
      emptyLine ⟨25, 25, false, 0, workSession, 0, -9223372036854775808⟩ ≠ "\n" := by
  have hp : padding ⟨25, 25, false, 0, workSession, 0, -9223372036854775808⟩ =
      4611686018427387900 := by decide
  have hlen : (emptyLine ⟨25, 25, false, 0, workSession, 0, -9223372036854775808⟩).length =
      4611686018427387901 := by
    rw [emptyLine_eq, hp]
    show (List.replicate (Int.toNat 4611686018427387900 + 1) '\n').length = 4611686018427387901
    rw [List.length_replicate]
    rfl
  refine ⟨by decide, hp, hlen, ?_⟩
  intro heq
  rw [heq] at hlen
  exact absurd hlen (by decide)

/-- C18, amended: for every height `h` of the 64-bit range with `h >= -2^63 + 7`
(so that `h - 7` does not wrap around; zero and negative heights included),
with `padding = (h - 7) / 2` by floor division, the blank-line block of `View`
consists of exactly `padding + 1` newline characters when `padding >= 0` and of
exactly one newline character when `padding` is negative. -/
theorem emptyLine_newlines (m : model) (h1 : -2 ^ 63 + 7 ≤ m.height) (h2 : m.height < 2 ^ 63) :
    (0 ≤ Int.fdiv (m.height - 7) 2 →
        emptyLine m =
          String.mk (List.replicate ((Int.fdiv (m.height - 7) 2).toNat + 1) '\n') ∧
        ((emptyLine m).length : Int) = Int.fdiv (m.height - 7) 2 + 1) ∧
      (Int.fdiv (m.height - 7) 2 < 0 → emptyLine m = "\n") := by
  obtain ⟨hpos, hneg⟩ := padding_toNat m h1 h2
  refine ⟨fun h => ?_, fun h => ?_⟩
  · refine ⟨by rw [emptyLine_eq, hpos h], ?_⟩
    rw [emptyLine_eq, hpos h]
    simp only [String.length, List.length_replicate]
    push_cast
    rw [Int.toNat_of_nonneg h]
  · rw [emptyLine_eq, hneg h]
    rfl

/-- Witness for C18 as amended: height 24 gives padding 8 and nine newlines;
height 6 gives floor padding -1 and height -5 gives floor padding -6, each with
the single newline. -/
theorem emptyLine_newlines_witness :
    ((emptyLine ⟨25, 25, false, 0, workSession, 80, 24⟩).length : Int) = 8 + 1 ∧
      emptyLine ⟨25, 25, false, 0, workSession, 80, 6⟩ = "\n" ∧
      emptyLine ⟨25, 25, false, 0, workSession, 80, -5⟩ = "\n" :=
  ⟨((emptyLine_newlines ⟨25, 25, false, 0, workSession, 80, 24⟩ (by decide) (by decide)).1
      (by decide)).2,
   (emptyLine_newlines ⟨25, 25, false, 0, workSession, 80, 6⟩ (by decide) (by decide)).2
      (by decide),
   (emptyLine_newlines ⟨25, 25, false, 0, workSession, 80, -5⟩ (by decide) (by decide)).2
      (by decide)⟩

/-- C19: commands are returned exactly when warranted.  `Update` returns the
tick command if and only if the message is `s` on a stopped timer or a tick on a
running timer with `remaining > 0`; it returns the quit command if and only if
the message is `q`; in every other case it returns no command.  Whenever it
returns the tick command, the returned state is running. -/
theorem Update_command_spec (m : model) (msg : Msg) :
    ((Update m msg).2 = some Cmd.tick ↔
        (msg = Msg.KeyMsg "s" ∧ m.running = false) ∨
        (msg = Msg.tickMsg ∧ m.running = true ∧ 0 < m.remaining)) ∧
      ((Update m msg).2 = some Cmd.Quit ↔ msg = Msg.KeyMsg "q") ∧
      (¬ ((msg = Msg.KeyMsg "s" ∧ m.running = false) ∨
          (msg = Msg.tickMsg ∧ m.running = true ∧ 0 < m.remaining)) →
        msg ≠ Msg.KeyMsg "q" → (Update m msg).2 = none) ∧
      ((Update m msg).2 = some Cmd.tick → (Update m msg).1.running = true) := by
  cases msg with
  | WindowSizeMsg w h => simp [Update]
  | KeyMsg key =>
    by_cases hs : key = "s"
    · subst hs
      cases hr : m.running <;> simp [Update, tick, hr]
    · by_cases hp : key = "p"
      · subst hp
        simp [Update, tick]
      · by_cases hq : key = "q"
        · subst hq
          simp [Update, tick]
        · simp [Update, tick, hs, hp, hq]
  | tickMsg =>
    cases hr : m.running
    · simp [Update, tick, hr]
    · by_cases h0 : 0 < m.remaining
      · by_cases h1 : m.remaining - 1 = 0 <;> simp [Update, tick, hr, h0, h1]
      · simp [Update, tick, hr, h0]
  | other => simp [Update]

/-- Witness for C19: `s` on the stopped initial model returns the tick command
and a running state, `q` returns the quit command, `p` returns none. -/
theorem Update_command_spec_witness :
    (Update initialModel (Msg.KeyMsg "s")).2 = some Cmd.tick ∧
      (Update initialModel (Msg.KeyMsg "s")).1.running = true ∧
      (Update initialModel (Msg.KeyMsg "q")).2 = some Cmd.Quit ∧
      (Update initialModel (Msg.KeyMsg "p")).2 = none :=
  ⟨(Update_command_spec initialModel (Msg.KeyMsg "s")).1.2 (Or.inl ⟨rfl, rfl⟩),
   (Update_command_spec initialModel (Msg.KeyMsg "s")).2.2.2
      ((Update_command_spec initialModel (Msg.KeyMsg "s")).1.2 (Or.inl ⟨rfl, rfl⟩)),
   (Update_command_spec initialModel (Msg.KeyMsg "q")).2.1.2 rfl,
   (Update_command_spec initialModel (Msg.KeyMsg "p")).2.2.1 (by decide) (by decide)⟩

/-- C20: reachable states are well formed.  In every state reached from the
initial model (work, 25, 25, stopped, cycle 0) by a finite sequence of messages
(ticks, keys, resizes, messages of other types) the duration is the one that
belongs to the kind (work 25, short break 5, long break 30) and
`1 <= remaining <= timerDuration`; so `remaining` is never 0 and the timer is
never running at 00:00. -/
theorem reachable_wellFormed (msgs : List Msg) :
    ((run initialModel msgs).timerType = workSession ∧
        (run initialModel msgs).timerDuration = 25 ∨
      (run initialModel msgs).timerType = shortBreak ∧
        (run initialModel msgs).timerDuration = 5 ∨
      (run initialModel msgs).timerType = longBreak ∧
        (run initialModel msgs).timerDuration = 30) ∧
      1 ≤ (run initialModel msgs).remaining ∧
      (run initialModel msgs).remaining ≤ (run initialModel msgs).timerDuration ∧
      (run initialModel msgs).remaining ≠ 0 ∧
      ¬ ((run initialModel msgs).running = true ∧ (run initialModel msgs).remaining = 0) := by
  have h0 : wellFormed initialModel := by
    refine ⟨Or.inl ⟨rfl, rfl⟩, ?_, ?_⟩ <;> decide
  obtain ⟨hk, h1, h2⟩ := run_wellFormed msgs initialModel h0
  refine ⟨hk, h1, h2, ?_, ?_⟩
  · omega
  · rintro ⟨-, hz⟩
    omega

end PomTimer
